import Mathlib

/-!
Verification of the extraction engine of the `product-scraper` repository
(`price-tracker`).  The Python sources are shallowly embedded: pure string
processing is translated to Lean functions over `List Char` / `String`,
prices are modelled as exact rationals (the spec's `decimal`), fallible
operations return `Option`, a raised Python exception that escapes a
function is modelled as `Except`, and the retry loop of
`ProductScraper.scrape_product` is modelled as a recursion over the list of
per-attempt outcomes.  Scope notes: regex classes `\d` and `\s` are
modelled over their ASCII ranges, as all inputs considered here are ASCII
apart from the currency symbols that the code strips explicitly.
-/

set_option maxRecDepth 4096

/-! ## PriceParser: `ProductScraper._parse_price` (product_scraper.py:324-336)

`re.sub(r"[₹$,€£¥\s]", "", text)` followed by
`re.findall(r"\d+\.?\d*", cleaned)`, `float(numbers[0])`, and
`return price if price > 0 else None`. -/

/-- Character class `\d` (ASCII range). -/
def isDig (c : Char) : Bool := 48 ≤ c.toNat && c.toNat ≤ 57

/-- Characters removed by `re.sub(r"[₹$,€£¥\s]", "", text)`:
the five currency symbols, the comma, and whitespace. -/
def isStripped (c : Char) : Bool :=
  c = '₹' || c = '$' || c = ',' || c = '€' || c = '£' || c = '¥' ||
  c = ' ' || c = '\t' || c = '\n' || c = '\r' || c = '\x0b' || c = '\x0c'

/-- Numeric value of a single ASCII digit character. -/
def digitVal (c : Char) : Nat := c.toNat - 48

/-- Value of a digit string read left to right (e.g. `"045"` is `45`). -/
def digitsVal (cs : List Char) : Nat :=
  cs.foldl (fun acc c => 10 * acc + digitVal c) 0

/-- First match of the regex `\d+\.?\d*`: the maximal digit run starting at
the first digit of the string, an optional dot, and the following maximal
digit run.  Returns the integer digits and the fraction digits. -/
def firstNumber : List Char → Option (List Char × List Char)
  | [] => none
  | c :: cs =>
    if isDig c then
      let d1 := (c :: cs).takeWhile isDig
      match (c :: cs).dropWhile isDig with
      | '.' :: r2 => some (d1, r2.takeWhile isDig)
      | _ => some (d1, [])
    else firstNumber cs

/-- Numeric value of a regex match `d1 ++ "." ++ d2`, with prices modelled
as exact rationals in place of Python `float`:
`digitsVal d1 + digitsVal d2 / 10 ^ d2.length`, written with `mkRat` over
natural-number arithmetic so it evaluates by kernel reduction. -/
def matchVal (d1 d2 : List Char) : ℚ :=
  mkRat (digitsVal d1 * 10 ^ d2.length + digitsVal d2) (10 ^ d2.length)

/-- `ProductScraper._parse_price`: empty input is rejected by
`if not text`, the character class is stripped, the first `\d+\.?\d*`
match is converted to a number, and non-positive values are rejected. -/
def parsePrice (s : String) : Option ℚ :=
  if s.data.isEmpty then none
  else
    match firstNumber (s.data.filter (fun c => !isStripped c)) with
    | none => none
    | some (d1, d2) =>
      if 0 < matchVal d1 d2 then some (matchVal d1 d2) else none

/-- `SeleniumScraper._parse_price` (selenium_scraper.py:126-137): same
cleaning and matching, but the result is returned without the
positivity check. -/
def sel_parse_price (s : String) : Option ℚ :=
  if s.data.isEmpty then none
  else
    match firstNumber (s.data.filter (fun c => !isStripped c)) with
    | none => none
    | some (d1, d2) => some (matchVal d1 d2)

example : parsePrice "" = none := by decide
example : parsePrice "N/A" = none := by decide
example : parsePrice "-5" = some 5 := by decide
example : parsePrice "₹1,234" = some 1234 := by decide
example : parsePrice "₹999 ₹1,299" = some 9991299 := by decide
example : parsePrice "₹999 MRP ₹1,299" = some 999 := by decide
example : parsePrice "₹12,345.50" = some (mkRat 24691 2) := by decide
example : parsePrice "0" = none := by decide
example : sel_parse_price "0" = some 0 := by decide

/-! ## SiteClassifier: `ProductScraper._identify_site` (product_scraper.py:191-205)

`domain = urlparse(url).netloc.lower()` followed by an `if/elif` chain of
substring tests.  `urlparse` is embedded down to the part that computes
`netloc`, following CPython 3.11's `urlsplit`: pre-cleaning (left-strip of
C0-control/space characters, removal of tab, newline and carriage return),
removal of a syntactically valid `scheme:`, and, when the remainder starts
with `//`, the authority up to the next `/`, `?` or `#`.  `urlsplit`
raises `ValueError` (modelled as `Except.error ()`) when the authority
contains `[` without `]` or vice versa, and also when it contains balanced
brackets whose bracketed host fails `_check_bracketed_host` (neither a
valid IPvFuture nor a non-IPv4 `ipaddress.ip_address`), so
`_identify_site` is not total.  (`_checknetloc`'s NFKC check raises only
for certain non-ASCII authorities, outside this model's ASCII scope.) -/

/-- WHATWG pre-cleaning performed by CPython `urlsplit`:
`url.lstrip(_WHATWG_C0_CONTROL_OR_SPACE)` followed by removal of the
`_UNSAFE_URL_BYTES_TO_REMOVE` everywhere. -/
def preClean (cs : List Char) : List Char :=
  (cs.dropWhile (fun c => c.toNat ≤ 32)).filter
    (fun c => !(c = '\t' || c = '\n' || c = '\r'))

/-- Characters allowed in a URL scheme (`scheme_chars` in CPython). -/
def isSchemeChar (c : Char) : Bool :=
  c.isAlpha || isDig c || c = '+' || c = '-' || c = '.'

/-- Splits a list at the first `:`; returns the parts before and after. -/
def splitColon : List Char → Option (List Char × List Char)
  | [] => none
  | c :: cs =>
    if c = ':' then some ([], cs)
    else
      match splitColon cs with
      | some (bef, aft) => some (c :: bef, aft)
      | none => none

/-- Removes a leading `scheme:` when the part before the first `:` is a
nonempty ASCII-alpha-initial run of scheme characters. -/
def dropScheme (cs : List Char) : List Char :=
  match splitColon cs with
  | some (bef, aft) =>
    match bef with
    | [] => cs
    | b :: _ => if b.isAlpha && bef.all isSchemeChar then aft else cs
  | none => cs

/-- The `netloc` component: present only after a leading `//`, extending to
the next `/`, `?` or `#`; empty otherwise. -/
def netlocRaw (url : String) : List Char :=
  match dropScheme (preClean url.data) with
  | '/' :: '/' :: rest => rest.takeWhile (fun c => !(c = '/' || c = '?' || c = '#'))
  | _ => []

/-- CPython's Invalid-IPv6-URL condition: exactly one of `[`, `]` occurs in
the authority. -/
def bracketsUnbalanced (netloc : List Char) : Bool :=
  netloc.any (· = '[') != netloc.any (· = ']')

/-- Python `s.partition(sep)` for a single-character separator: the part
before the first occurrence, whether one occurred, and the part after. -/
def partThree (sep : Char) : List Char → List Char × Bool × List Char
  | [] => ([], false, [])
  | c :: cs =>
    if c = sep then ([], true, cs)
    else
      let r := partThree sep cs
      (c :: r.1, r.2.1, r.2.2)

/-- Python `s.split(sep)` for a single-character separator. -/
def splitOn (sep : Char) : List Char → List (List Char)
  | [] => [[]]
  | c :: cs =>
    if c = sep then [] :: splitOn sep cs
    else
      match splitOn sep cs with
      | [] => [[c]]
      | p :: ps => (c :: p) :: ps

/-- `netloc.partition('[')[2].partition(']')[0]` (urllib/parse.py:499). -/
def bracketedHost (netloc : List Char) : List Char :=
  (partThree ']' (partThree '[' netloc).2.2).1

/-- Hex digits accepted by `ipaddress._parse_hextet` and the IPvFuture
regex (`0-9a-fA-F`). -/
def isHexDig (c : Char) : Bool :=
  isDig c || (97 ≤ c.toNat && c.toNat ≤ 102) || (65 ≤ c.toNat && c.toNat ≤ 70)

/-- `ipaddress._BaseV4._parse_octet`: nonempty, ASCII digits only, at most
three characters, no leading zero (except `"0"` itself), value at most
255. -/
def validOctet (cs : List Char) : Bool :=
  !cs.isEmpty && cs.all isDig && cs.length ≤ 3 &&
  !(decide (1 < cs.length) && decide (cs.headD ' ' = '0')) &&
  digitsVal cs ≤ 255

/-- `ipaddress.IPv4Address` string parsing: rejects a `/`, then requires
exactly four `.`-separated valid octets. -/
def validIPv4 (cs : List Char) : Bool :=
  !(cs.contains '/') &&
  (let octets := splitOn '.' cs
   octets.length == 4 && octets.all validOctet)

/-- `ipaddress._BaseV6._parse_hextet`: hex digits only, at most four
characters, nonempty (the empty string fails Python's `int('', 16)`). -/
def validHextet (cs : List Char) : Bool :=
  !cs.isEmpty && cs.all isHexDig && cs.length ≤ 4

/-- Core of `ipaddress._BaseV6._ip_int_from_string` after the colon split
and the embedded-IPv4 expansion: at most 9 parts, at most one empty
interior part (the `::`), an empty first or last part only adjacent to
the `::`, at least one skipped hextet when a `::` is present and exactly
8 parts otherwise, and every part CPython would parse a valid hextet. -/
def validV6Parts (parts : List (List Char)) : Bool :=
  if 9 < parts.length then false
  else
    let n := parts.length
    let interior := (List.range n).filter
      (fun i => decide (0 < i) && decide (i < n - 1) && (parts.getD i []).isEmpty)
    match interior with
    | [] =>
      n == 8 && !(parts.getD 0 []).isEmpty && !(parts.getLastD []).isEmpty &&
        parts.all validHextet
    | [i] =>
      let headE := (parts.getD 0 []).isEmpty
      let tailE := (parts.getLastD []).isEmpty
      if headE && i ≠ 1 then false
      else if tailE && n - i - 2 ≠ 0 then false
      else
        let hi := if headE then i - 1 else i
        let lo := if tailE then n - i - 2 else n - i - 1
        if 8 ≤ hi + lo then false
        else (parts.take hi).all validHextet && (parts.drop (n - lo)).all validHextet
    | _ => false

/-- `ipaddress.IPv6Address` string parsing: rejects `/`, splits an
optional `%scope` (which must be nonempty and contain no further `%`),
requires at least three colon-separated parts, expands a dotted final
part (which must then be a valid IPv4 address) into two hextets, and
applies the `::` rules of `validV6Parts`. -/
def validIPv6 (cs : List Char) : Bool :=
  if cs.contains '/' then false
  else
    let part := partThree '%' cs
    if part.2.1 && (part.2.2.isEmpty || part.2.2.contains '%') then false
    else
      let parts := splitOn ':' part.1
      if parts.length < 3 then false
      else if (parts.getLastD []).contains '.' then
        validIPv4 (parts.getLastD []) && validV6Parts (parts.dropLast ++ [['0'], ['0']])
      else validV6Parts parts

/-- `urllib.parse._check_bracketed_host` (Python 3.11): a host starting
with `v` must match the IPvFuture regex `\Av[a-fA-F0-9]+\..+\Z`
(`.` matching anything but a newline); any other host must be accepted by
`ipaddress.ip_address` and not be IPv4 — i.e. be a valid IPv6 address. -/
def bracketedHostOk (cs : List Char) : Bool :=
  match cs with
  | 'v' :: rest =>
    !(rest.takeWhile isHexDig).isEmpty &&
      (match rest.dropWhile isHexDig with
       | '.' :: tail => !tail.isEmpty && tail.all (· ≠ '\n')
       | _ => false)
  | _ => if validIPv4 cs then false else validIPv6 cs

/-- The raise conditions of `urlsplit` on the authority
(urllib/parse.py:494-500): unbalanced square brackets, or balanced
brackets whose bracketed host fails `_check_bracketed_host`. -/
def netlocInvalid (netloc : List Char) : Bool :=
  bracketsUnbalanced netloc ||
  (netloc.any (· = '[') && netloc.any (· = ']') &&
    !bracketedHostOk (bracketedHost netloc))

/-- ASCII lowering, as applied by `.lower()` to the host names here. -/
def lowerChar (c : Char) : Char :=
  if 65 ≤ c.toNat && c.toNat ≤ 90 then Char.ofNat (c.toNat + 32) else c

/-- Decides whether `needle` is a prefix of `hay`. -/
def isPrefOf : List Char → List Char → Bool
  | [], _ => true
  | _ :: _, [] => false
  | a :: as, b :: bs => a = b && isPrefOf as bs

/-- Python's `needle in hay` substring test. -/
def hasSub (hay needle : List Char) : Bool :=
  match hay with
  | [] => needle.isEmpty
  | _ :: tl => isPrefOf needle hay || hasSub tl needle

/-- The names returned by `_identify_site`, in the order they are tried. -/
def siteNames : List String :=
  ["amazon", "flipkart", "ebay", "meesho", "myntra", "generic"]

/-- `ProductScraper._identify_site`: lowers the netloc and tests the five
known-site substrings in order, defaulting to `"generic"`; propagates the
`ValueError` that `urlparse` raises on an unbalanced bracket or an
invalid bracketed host. -/
def identifySite (url : String) : Except Unit String :=
  let netloc := netlocRaw url
  if netlocInvalid netloc then .error ()
  else
    let domain := netloc.map lowerChar
    .ok (if hasSub domain "amazon".data then "amazon"
      else if hasSub domain "flipkart".data then "flipkart"
      else if hasSub domain "ebay".data then "ebay"
      else if hasSub domain "meesho".data then "meesho"
      else if hasSub domain "myntra".data then "myntra"
      else "generic")

example : identifySite "https://www.amazon.in/dp/x" = .ok "amazon" := by rfl
example : identifySite "HTTPS://WWW.FLIPKART.COM/item" = .ok "flipkart" := by rfl
example : identifySite "http://[" = .error () := by rfl
example : identifySite "not a url" = .ok "generic" := by rfl
example : identifySite "//meesho.com/p" = .ok "meesho" := by rfl
example : identifySite "http://[abc]" = .error () := by rfl
example : identifySite "http://[]" = .error () := by rfl
example : identifySite "http://[1.2.3.4]" = .error () := by rfl
example : identifySite "http://[01.2.3.4]" = .error () := by rfl
example : identifySite "http://[12345::]" = .error () := by rfl
example : identifySite "http://[1:2:3:4:5:6:7:8:9]" = .error () := by rfl
example : identifySite "http://[::1%]" = .error () := by rfl
example : identifySite "http://[::1]/p" = .ok "generic" := by rfl
example : identifySite "http://[1:2:3:4:5:6:7:8]" = .ok "generic" := by rfl
example : identifySite "http://[::ffff:1.2.3.4]/" = .ok "generic" := by rfl
example : identifySite "http://[fe80::1%25eth0]" = .ok "generic" := by rfl
example : identifySite "http://[v1.x]/p" = .ok "generic" := by rfl

/-! ## Adapters (product_scraper.py:118-188, 216-322)

Each adapter queries the parsed document through CSS selectors and builds
the dict `{'name', 'price', 'url', 'image_url', 'availability'}` guarded by
`if name and price`.  The selector queries themselves are opaque HTML
machinery; their results — the texts the selectors produced, in document
order — are the adapters' inputs here, collected in `Page`. -/

/-- Result dict of a successful extraction.  `site` is absent in the
adapters' dicts and set by `scrape_product` on the static path. -/
structure ProductInfo where
  name : String
  price : ℚ
  url : String
  image_url : Option String
  availability : String
  site : Option String
deriving DecidableEq, Repr

/-- Selector-query results of a fetched page: `nameText` and `priceText`
are the texts of the first found name/price element (for the adapters that
use a single `select_one` chain), `priceTexts` the texts of the found price
elements in order (for the adapters that loop over price selectors, and the
`₹`-bearing strings for Meesho), `texts` the candidate name texts Meesho
scans, `image` the extracted image URL. -/
structure Page where
  nameText : Option String := none
  priceText : Option String := none
  priceTexts : List String := []
  texts : List String := []
  image : Option String := none
deriving DecidableEq, Repr

/-- The shared tail of every adapter: `if name and price: return {...}`
with Python truthiness (`None` and `""` falsy for the name, `None` and `0`
falsy for the price). -/
def mkInfo (url avail : String) (name : Option String) (price : Option ℚ)
    (image : Option String) : Option ProductInfo :=
  match name, price with
  | some n, some p =>
    if n ≠ "" ∧ p ≠ 0 then
      some { name := n, price := p, url := url, image_url := image,
             availability := avail, site := none }
    else none
  | _, _ => none

/-- Price-selector loop of `_scrape_flipkart` / `_scrape_ebay`:
`price = _parse_price(text); if price: break`. -/
def firstParsedPrice : List String → Option ℚ
  | [] => none
  | t :: rest =>
    match parsePrice t with
    | some p => if p ≠ 0 then some p else firstParsedPrice rest
    | none => firstParsedPrice rest

/-- Price loop of `_extract_meesho`:
`parsed = _parse_price(text); if parsed and parsed > 10: break`. -/
def firstMeeshoPrice : List String → Option ℚ
  | [] => none
  | t :: rest =>
    match parsePrice t with
    | some p => if p ≠ 0 ∧ 10 < p then some p else firstMeeshoPrice rest
    | none => firstMeeshoPrice rest

/-- Name scan of `_extract_meesho`: the first candidate text with
`10 < len(text) < 200`. -/
def meeshoName (texts : List String) : Option String :=
  texts.find? (fun t => 10 < t.length && t.length < 200)

/-- `ProductScraper._scrape_amazon` (lines 248-268). -/
def scrape_amazon (url : String) (pg : Page) : Option ProductInfo :=
  mkInfo url "In Stock" pg.nameText (pg.priceText.bind parsePrice) pg.image

/-- `ProductScraper._scrape_flipkart` (lines 216-246). -/
def scrape_flipkart (url : String) (pg : Page) : Option ProductInfo :=
  mkInfo url "In Stock" pg.nameText (firstParsedPrice pg.priceTexts) pg.image

/-- `ProductScraper._scrape_ebay` (lines 270-300). -/
def scrape_ebay (url : String) (pg : Page) : Option ProductInfo :=
  mkInfo url "In Stock" pg.nameText (firstParsedPrice pg.priceTexts) pg.image

/-- `ProductScraper._scrape_generic` (lines 302-322): metadata fallback,
availability `"Unknown"`. -/
def scrape_generic (url : String) (pg : Page) : Option ProductInfo :=
  mkInfo url "Unknown" pg.nameText (pg.priceText.bind parsePrice) pg.image

/-- `ProductScraper._extract_meesho` (lines 118-149). -/
def extract_meesho (url : String) (pg : Page) : Option ProductInfo :=
  mkInfo url "In Stock" (meeshoName pg.texts) (firstMeeshoPrice pg.priceTexts) pg.image

/-- `ProductScraper._extract_myntra` (lines 152-188). -/
def extract_myntra (url : String) (pg : Page) : Option ProductInfo :=
  mkInfo url "In Stock" pg.nameText (pg.priceText.bind parsePrice) pg.image

/-- Static-path adapter dispatch of `scrape_product` (lines 59-66):
anything that is not Amazon, Flipkart or eBay falls to the generic
adapter. -/
def adapterFor (site url : String) (pg : Page) : Option ProductInfo :=
  if site = "amazon" then scrape_amazon url pg
  else if site = "flipkart" then scrape_flipkart url pg
  else if site = "ebay" then scrape_ebay url pg
  else scrape_generic url pg

/-! ## Engine: `ProductScraper.scrape_product` (product_scraper.py:39-83)
and the Selenium paths (lines 85-116; selenium_scraper.py:83-124) -/

/-- Configured retry budget (`self.retry_attempts = 3`). -/
def retry_attempts : Nat := 3

/-- Configured inter-attempt delay in seconds
(`self.delay_between_requests = 2`). -/
def delay_between_requests : Nat := 2

/-- The two rendering strategies of the spec. -/
inductive Strategy where
  | staticFetch
  | dynamicRender
deriving DecidableEq, Repr

/-- The dispatch condition of line 45:
`if site in ['meesho', 'myntra'] and SELENIUM_AVAILABLE`. -/
def selectStrategy (site : String) (seleniumAvailable : Bool) : Strategy :=
  if (site = "meesho" ∨ site = "myntra") ∧ seleniumAvailable = true then
    .dynamicRender
  else .staticFetch

/-- What one iteration of the static retry loop encounters: a fetched and
parsed page (the adapter then runs on it), a `requests.RequestException`
(network error, timeout, or a non-2xx raised by `raise_for_status`), or
any other exception. -/
inductive AttemptOutcome where
  | fetched (pg : Page)
  | requestError
  | otherError
deriving DecidableEq, Repr

/-- The retry loop of `scrape_product` (lines 50-83) over the list of
per-attempt outcomes (one entry per loop iteration that would run).
Returns the result together with the number of attempts executed and the
number of `time.sleep(delay_between_requests)` calls: a complete result
returns immediately; an incomplete or absent result falls through to the
next attempt without sleeping; a `RequestException` sleeps only when
another attempt remains (`attempt < retry_attempts - 1`); any other
exception is swallowed. -/
def runAttempts (site url : String) : List AttemptOutcome → Option ProductInfo × Nat × Nat
  | [] => (none, 0, 0)
  | o :: rest =>
    match o with
    | .fetched pg =>
      match adapterFor site url pg with
      | some info =>
        if info.name ≠ "" ∧ info.price ≠ 0 then
          (some { info with site := some site }, 1, 0)
        else
          let r := runAttempts site url rest
          (r.1, r.2.1 + 1, r.2.2)
      | none =>
        let r := runAttempts site url rest
        (r.1, r.2.1 + 1, r.2.2)
    | .requestError =>
      if rest.isEmpty then (none, 1, 0)
      else
        let r := runAttempts site url rest
        (r.1, r.2.1 + 1, r.2.2 + 1)
    | .otherError =>
      let r := runAttempts site url rest
      (r.1, r.2.1 + 1, r.2.2)

/-- `ProductScraper._scrape_with_selenium` (lines 85-116).  The `Bool`
arguments tell whether driver creation, `driver.get`, and the
`WebDriverWait` succeed; the second component of the result records
whether `driver.quit()` ran.  Every exception is caught and turns into
`None`, but `driver.quit()` is only reached on the path where navigation
and the wait both succeed — there is no `finally`. -/
def scrape_with_selenium (url site : String) (driverOk navOk waitOk : Bool)
    (pg : Page) : Option ProductInfo × Bool :=
  if !driverOk then (none, false)
  else if !navOk then (none, false)
  else if !waitOk then (none, false)
  else
    let result :=
      if site = "meesho" then extract_meesho url pg
      else if site = "myntra" then extract_myntra url pg
      else none
    (result, true)

/-- `SeleniumScraper.scrape_myntra` (selenium_scraper.py:83-124): same
session lifecycle, `driver.quit()` on line 114 runs only after a
successful wait; extraction uses the selenium `_parse_price` (which lacks
the positivity check). -/
def sel_scrape_myntra (url : String) (driverOk navOk waitOk : Bool)
    (nameText priceText image : Option String) : Option ProductInfo × Bool :=
  if !driverOk then (none, false)
  else if !navOk then (none, false)
  else if !waitOk then (none, false)
  else
    (mkInfo url "In Stock" nameText (priceText.bind sel_parse_price) image, true)

/-- `ProductScraper.scrape_product` (lines 39-83): classifies the site
(propagating `urlparse`'s `ValueError`, raised outside any `try`), uses
the Selenium path for Meesho/Myntra when Selenium imported, and otherwise
runs the static retry loop over `range(self.retry_attempts)` iterations. -/
def scrape_product (url : String) (seleniumAvailable : Bool)
    (driverOk navOk waitOk : Bool) (selPage : Page)
    (attempts : List AttemptOutcome) : Except Unit (Option ProductInfo) :=
  match identifySite url with
  | .error e => .error e
  | .ok site =>
    if selectStrategy site seleniumAvailable = .dynamicRender then
      .ok (scrape_with_selenium url site driverOk navOk waitOk selPage).1
    else
      .ok (runAttempts site url (attempts.take retry_attempts)).1

/-! ## AlertEvaluator: `DatabaseManager.update_price` (database.py:128-176)

The modelled fragment is the evaluation record the method returns for a
product found in the database:
`price_change = ((new_price - old_price) / old_price) * 100 if old_price`
and `should_alert = new_price <= alert_price if alert_price else False`,
with Python truthiness (`None` and `0` falsy). -/

/-- The dict returned by `update_price` on success. -/
structure UpdateResult where
  old_price : Option ℚ
  new_price : ℚ
  price_change : Option ℚ
  alert_price : Option ℚ
  should_alert : Bool
deriving DecidableEq, Repr

/-- Evaluation part of `DatabaseManager.update_price` (lines 144-176). -/
def update_price (oldPrice alertPrice : Option ℚ) (newPrice : ℚ) : UpdateResult :=
  { old_price := oldPrice
    new_price := newPrice
    price_change :=
      match oldPrice with
      | some o => if o ≠ 0 then some ((newPrice - o) / o * 100) else none
      | none => none
    alert_price := alertPrice
    should_alert :=
      match alertPrice with
      | some a => if a ≠ 0 then decide (newPrice ≤ a) else false
      | none => false }

example :
    (scrape_product "https://www.amazon.in/dp/x" false true true true {}
      [AttemptOutcome.fetched { nameText := some "Test Widget", priceText := some "₹1,234" }]) =
    .ok (some { name := "Test Widget", price := 1234, url := "https://www.amazon.in/dp/x",
                image_url := none, availability := "In Stock", site := some "amazon" }) := by
  rfl

example :
    runAttempts "amazon" "u" (List.replicate retry_attempts (AttemptOutcome.fetched {})) =
      (none, 3, 0) := by decide

example : (update_price none (some 0) 500).should_alert = false := by decide
example : (update_price none (some (-5)) (-10)).should_alert = true := by decide
example : (scrape_with_selenium "u" "meesho" true true false {}).2 = false := by decide

/-! ## Rendering a parsed price back to text (`str` in `parse(str(parse(x)))`)

Every value `parsePrice` produces is a nonnegative rational whose
denominator divides a power of ten, so it has a finite decimal expansion.
`pyStr` renders it the way Python's `str` renders a float: positionally
with minimal digits and `.0` appended to whole values when the value lies
in `[1e-4, 1e16)` (`str(999.0) = "999.0"`, `str(0.05) = "0.05"`), and in
scientific notation outside that range (`str(1e16) = "1e+16"`,
`str(1e-05) = "1e-05"`). -/

/-- The ASCII digit character for a value below ten. -/
def digitChar : Nat → Char
  | 0 => '0' | 1 => '1' | 2 => '2' | 3 => '3' | 4 => '4'
  | 5 => '5' | 6 => '6' | 7 => '7' | 8 => '8' | _ => '9'

/-- Fuel-driven base-10 digit expansion (most significant first). -/
def natDigitsAux : Nat → Nat → List Char → List Char
  | 0, _, acc => acc
  | fuel + 1, n, acc =>
    if n < 10 then digitChar n :: acc
    else natDigitsAux fuel (n / 10) (digitChar (n % 10) :: acc)

/-- Decimal digits of a natural number, without leading zeros
(`natDigits 0 = "0"`). -/
def natDigits (n : Nat) : List Char := natDigitsAux (n + 1) n []

/-- Smallest exponent `k` with `d ∣ 10 ^ k`, searched up to `d` (which
suffices whenever such an exponent exists at all). -/
def decExp (d : Nat) : Nat :=
  (((List.range (d + 1)).find? (fun k => 10 ^ k % d == 0)).getD 0)

/-- Positional decimal rendering of a parsed price: integer digits, a
dot, and the fraction digits zero-padded on the left to the decimal
exponent of the denominator. -/
def pyStrPos (q : ℚ) : String :=
  let k := decExp q.den
  let scaled := q.num.toNat * (10 ^ k / q.den)
  let fds := natDigits (scaled % 10 ^ k)
  ⟨natDigits (scaled / 10 ^ k) ++ '.' :: (List.replicate (k - fds.length) '0' ++ fds)⟩

/-- Lower bound of Python `str`'s positional range for floats (`1e-4`). -/
def posLow : ℚ := mkRat 1 10000

/-- Upper bound of Python `str`'s positional range for floats (`1e16`). -/
def posHigh : ℚ := mkRat 10000000000000000 1

/-- Scientific rendering `d[.ddd]e±XX` used by Python `str` outside the
positional range: the significant digits of the exact decimal expansion
(trailing zeros stripped), a dot after the first digit when more than one
remains, and a signed exponent zero-padded to two digits.  The mantissa
here is the exact expansion; the rounding of a float's shortest repr to
at most 17 significant digits is not modelled, and the theorems below
evaluate this branch only where the two coincide. -/
def pyStrSci (q : ℚ) : String :=
  let k := decExp q.den
  let scaled := q.num.toNat * (10 ^ k / q.den)
  let D := natDigits scaled
  let ds := (D.reverse.dropWhile (· = '0')).reverse
  let mant := match ds with
    | [] => ['0']
    | c :: rest => if rest.isEmpty then [c] else c :: '.' :: rest
  let E : Int := (D.length : Int) - 1 - k
  let eAbs := natDigits E.natAbs
  ⟨mant ++ 'e' :: (if E < 0 then '-' else '+') ::
    (if eAbs.length < 2 then '0' :: eAbs else eAbs)⟩

/-- Python `str` of a parsed price: positional inside `[1e-4, 1e16)`,
scientific outside. -/
def pyStr (q : ℚ) : String :=
  if posLow ≤ q ∧ q < posHigh then pyStrPos q else pyStrSci q

example : pyStr (mkRat 24691 2) = "12345.5" := by decide
example : pyStr 999 = "999.0" := by decide
example : pyStr (mkRat 1 20) = "0.05" := by decide
example : pyStr (mkRat 10000000000000000 1) = "1e+16" := by decide
example : pyStr (mkRat 25000000000000000 1) = "2.5e+16" := by decide

/-! ## Helper lemmas -/

theorem digitVal_digitChar {d : Nat} (h : d < 10) : digitVal (digitChar d) = d := by
  interval_cases d <;> rfl

theorem isDig_digitChar {d : Nat} (h : d < 10) : isDig (digitChar d) = true := by
  interval_cases d <;> rfl

theorem digitsVal_append (l : List Char) (c : Char) :
    digitsVal (l ++ [c]) = 10 * digitsVal l + digitVal c := by
  simp [digitsVal, List.foldl_append]

theorem digitsVal_replicate_zero (z : Nat) (l : List Char) :
    digitsVal (List.replicate z '0' ++ l) = digitsVal l := by
  induction z with
  | zero => simp
  | succ z ih =>
    have : List.replicate (z + 1) '0' ++ l = '0' :: (List.replicate z '0' ++ l) := by
      simp [List.replicate_succ]
    rw [this]
    simpa [digitsVal, digitVal] using ih

theorem natDigitsAux_spec :
    ∀ n fuel acc, n < fuel →
      ∃ ds, natDigitsAux fuel n acc = ds ++ acc ∧ ds ≠ [] ∧
        (∀ c ∈ ds, isDig c = true) ∧ digitsVal ds = n ∧
        ∀ k, 1 ≤ k → n < 10 ^ k → ds.length ≤ k := by
  intro n
  induction n using Nat.strong_induction_on with
  | _ n ih =>
    intro fuel acc hfuel
    match fuel with
    | 0 => omega
    | f + 1 =>
      by_cases hn : n < 10
      · refine ⟨[digitChar n], ?_, by simp, ?_, ?_, ?_⟩
        · simp [natDigitsAux, hn]
        · intro c hc
          simp at hc
          subst hc
          exact isDig_digitChar hn
        · simp [digitsVal, digitVal_digitChar hn]
        · intro k hk _
          simpa using hk
      · have h10 : 10 ≤ n := by omega
        have hpos : 0 < n := by omega
        have hdiv_lt : n / 10 < n := Nat.div_lt_self hpos (by omega)
        have hdiv_fuel : n / 10 < f := by
          have : n ≤ f := by omega
          omega
        obtain ⟨ds', heq, hne, hdig, hval, hlen⟩ :=
          ih (n / 10) hdiv_lt f (digitChar (n % 10) :: acc) hdiv_fuel
        refine ⟨ds' ++ [digitChar (n % 10)], ?_, by simp [hne], ?_, ?_, ?_⟩
        · rw [natDigitsAux]
          simp only [if_neg hn]
          rw [heq, List.append_assoc, List.singleton_append]
        · intro c hc
          rcases List.mem_append.mp hc with h | h
          · exact hdig c h
          · simp at h
            subst h
            exact isDig_digitChar (Nat.mod_lt n (by omega))
        · rw [digitsVal_append, hval, digitVal_digitChar (Nat.mod_lt n (by omega))]
          exact Nat.div_add_mod n 10
        · intro k hk hnk
          have hk2 : 2 ≤ k := by
            by_contra hcon
            have : k = 1 := by omega
            subst this
            simp at hnk
            omega
          have : n / 10 < 10 ^ (k - 1) := by
            have hpow : 10 ^ k = 10 ^ (k - 1) * 10 := by
              conv_lhs => rw [show k = (k - 1) + 1 by omega]
              rw [pow_succ]
            refine Nat.div_lt_of_lt_mul ?_
            omega
          have := hlen (k - 1) (by omega) this
          simp only [List.length_append, List.length_singleton]
          omega

theorem natDigits_ne_nil (n : Nat) : natDigits n ≠ [] := by
  obtain ⟨ds, heq, hne, -, -, -⟩ := natDigitsAux_spec n (n + 1) [] (by omega)
  rw [natDigits, heq, List.append_nil]
  exact hne

theorem natDigits_digits (n : Nat) : ∀ c ∈ natDigits n, isDig c = true := by
  obtain ⟨ds, heq, -, hdig, -, -⟩ := natDigitsAux_spec n (n + 1) [] (by omega)
  rw [natDigits, heq, List.append_nil]
  exact hdig

theorem digitsVal_natDigits (n : Nat) : digitsVal (natDigits n) = n := by
  obtain ⟨ds, heq, -, -, hval, -⟩ := natDigitsAux_spec n (n + 1) [] (by omega)
  rw [natDigits, heq, List.append_nil]
  exact hval

theorem natDigits_length_le {n k : Nat} (hk : 1 ≤ k) (h : n < 10 ^ k) :
    (natDigits n).length ≤ k := by
  obtain ⟨ds, heq, -, -, -, hlen⟩ := natDigitsAux_spec n (n + 1) [] (by omega)
  rw [natDigits, heq, List.append_nil]
  exact hlen k hk h

theorem dvd_ten_pow_self {d : Nat} : ∀ {L : Nat}, d ∣ 10 ^ L → d ∣ 10 ^ d := by
  induction d using Nat.strong_induction_on with
  | _ d ih =>
    intro L hL
    match d, hL with
    | 0, hL =>
      exfalso
      have := Nat.eq_zero_of_zero_dvd hL
      exact absurd this (Nat.pos_iff_ne_zero.mp (Nat.pos_pow_of_pos L (by omega)))
    | 1, _ => exact one_dvd _
    | d + 2, hL =>
      obtain ⟨p, hp, hpd⟩ := Nat.exists_prime_and_dvd (n := d + 2) (by omega)
      have hp10 : p ∣ 10 := hp.dvd_of_dvd_pow (hpd.trans hL)
      obtain ⟨m, hm⟩ := hpd
      have hmpos : 0 < m := by
        rcases Nat.eq_zero_or_pos m with h | h
        · subst h; omega
        · exact h
      have hp2 : 2 ≤ p := hp.two_le
      have hmlt : m < d + 2 := by
        by_contra hcon
        push_neg at hcon
        have : p * m ≥ 2 * (d + 2) := by
          calc p * m ≥ 2 * m := Nat.mul_le_mul_right m hp2
          _ ≥ 2 * (d + 2) := by omega
        omega
      have hmdvd : m ∣ 10 ^ L := (Dvd.intro_left p hm.symm).trans hL
      have hIH : m ∣ 10 ^ m := ih m hmlt hmdvd
      have : d + 2 ∣ 10 ^ (m + 1) := by
        rw [hm, pow_succ, Nat.mul_comm (10 ^ m) 10]
        exact mul_dvd_mul hp10 hIH
      exact this.trans (pow_dvd_pow 10 (by omega))

theorem find?_spec {α : Type} {p : α → Bool} :
    ∀ {l : List α}, (∃ x ∈ l, p x = true) → ∃ y, l.find? p = some y ∧ p y = true := by
  intro l
  induction l with
  | nil => rintro ⟨x, hx, -⟩; simp at hx
  | cons a t ih =>
    rintro ⟨x, hx, hpx⟩
    by_cases ha : p a = true
    · exact ⟨a, by simp [List.find?_cons, ha], ha⟩
    · have hxt : x ∈ t := by
        rcases List.mem_cons.mp hx with rfl | h
        · exact absurd hpx ha
        · exact h
      obtain ⟨y, hy, hpy⟩ := ih ⟨x, hxt, hpx⟩
      refine ⟨y, ?_, hpy⟩
      have ha' : p a = false := by
        cases hpa : p a
        · rfl
        · exact absurd hpa ha
      simp [List.find?_cons, ha', hy]

theorem decExp_dvd {d : Nat} (h : ∃ L, d ∣ 10 ^ L) :
    d ∣ 10 ^ decExp d := by
  obtain ⟨L, hL⟩ := h
  have hd : d ∣ 10 ^ d := dvd_ten_pow_self hL
  have hmem : ∃ x ∈ List.range (d + 1), (fun k => 10 ^ k % d == 0) x = true := by
    refine ⟨d, List.mem_range.mpr (by omega), ?_⟩
    simp [Nat.mod_eq_zero_of_dvd hd]
  obtain ⟨y, hy, hpy⟩ := find?_spec hmem
  rw [decExp, hy]
  simp only [Option.getD_some]
  exact Nat.dvd_iff_mod_eq_zero.mpr (by simpa using hpy)

theorem matchVal_eq (d1 d2 : List Char) :
    matchVal d1 d2 = (digitsVal d1 : ℚ) + (digitsVal d2 : ℚ) / (10 : ℚ) ^ d2.length := by
  rw [matchVal, Rat.mkRat_eq_div]
  have hne : ((10 : ℚ) ^ d2.length) ≠ 0 := by positivity
  push_cast
  field_simp

theorem matchVal_nonneg (d1 d2 : List Char) : 0 ≤ matchVal d1 d2 := by
  rw [matchVal_eq]
  positivity

theorem matchVal_den_dvd (d1 d2 : List Char) :
    (matchVal d1 d2).den ∣ 10 ^ d2.length := by
  rw [matchVal, Rat.mkRat_eq_divInt]
  have := Rat.den_dvd ((digitsVal d1 * 10 ^ d2.length + digitsVal d2 : ℕ) : ℤ)
    ((10 ^ d2.length : ℕ) : ℤ)
  exact_mod_cast this

theorem parsePrice_eq {s : String} {q : ℚ} (h : parsePrice s = some q) :
    ∃ d1 d2, firstNumber (s.data.filter (fun c => !isStripped c)) = some (d1, d2) ∧
      q = matchVal d1 d2 ∧ 0 < q := by
  rw [parsePrice] at h
  split at h
  · exact absurd h (by simp)
  · split at h
    · exact absurd h (by simp)
    · rename_i d1 d2 heq
      split at h
      · rename_i hpos
        obtain rfl := Option.some_injective _ h
        exact ⟨d1, d2, by simpa using heq, rfl, hpos⟩
      · exact absurd h (by simp)

theorem parsePrice_pos {s : String} {q : ℚ} (h : parsePrice s = some q) : 0 < q :=
  (parsePrice_eq h).choose_spec.choose_spec.2.2

theorem sel_parse_price_nonneg {s : String} {q : ℚ} (h : sel_parse_price s = some q) :
    0 ≤ q := by
  rw [sel_parse_price] at h
  split at h
  · exact absurd h (by simp)
  · split at h
    · exact absurd h (by simp)
    · rename_i d1d2 heq
      obtain rfl := Option.some_injective _ h
      exact matchVal_nonneg _ _

theorem isDig_not_stripped {c : Char} (h : isDig c = true) : isStripped c = false := by
  by_contra hc
  rw [Bool.not_eq_false] at hc
  rw [isStripped] at hc
  simp only [Bool.or_eq_true, decide_eq_true_eq] at hc
  rcases hc with ((((((((((rfl | rfl) | rfl) | rfl) | rfl) | rfl) | rfl) | rfl) | rfl) | rfl) | rfl) | rfl <;>
    simp [isDig] at h

theorem parsePrice_digits (ids frac : List Char) (hids : ids ≠ [])
    (hd1 : ∀ c ∈ ids, isDig c = true) (hd2 : ∀ c ∈ frac, isDig c = true)
    (hpos : 0 < matchVal ids frac) :
    parsePrice ⟨ids ++ '.' :: frac⟩ = some (matchVal ids frac) := by
  obtain ⟨c, t, rfl⟩ := List.exists_cons_of_ne_nil hids
  have hc : isDig c = true := hd1 c (by simp)
  have ht : ∀ a ∈ t, isDig a = true := fun a ha => hd1 a (by simp [ha])
  have hdot : isDig '.' = false := by decide
  have hfilter :
      ((c :: t) ++ '.' :: frac).filter (fun x => !isStripped x) =
        (c :: t) ++ '.' :: frac := by
    rw [List.filter_eq_self]
    intro a ha
    rcases List.mem_append.mp ha with h | h
    · simp [isDig_not_stripped (hd1 a h)]
    · rcases List.mem_cons.mp h with rfl | h
      · decide
      · simp [isDig_not_stripped (hd2 a h)]
  have htake : ((c :: t) ++ '.' :: frac).takeWhile isDig = c :: t := by
    rw [List.takeWhile_append_of_pos hd1, List.takeWhile_cons_of_neg (by simp [hdot])]
    simp
  have hdrop : ((c :: t) ++ '.' :: frac).dropWhile isDig = '.' :: frac := by
    rw [List.dropWhile_append_of_pos hd1, List.dropWhile_cons_of_neg (by simp [hdot])]
  have htakefrac : frac.takeWhile isDig = frac :=
    List.takeWhile_eq_self_iff.mpr hd2
  have hdata : ((⟨(c :: t) ++ '.' :: frac⟩ : String)).data = (c :: t) ++ '.' :: frac := rfl
  rw [parsePrice, hdata, hfilter]
  have hcons : (c :: t) ++ '.' :: frac = c :: (t ++ '.' :: frac) := by simp
  rw [hcons] at htake hdrop ⊢
  simp only [List.isEmpty_cons, Bool.false_eq_true, if_false, ite_false]
  rw [firstNumber]
  simp only [hc, if_true, ite_true, htake, hdrop, htakefrac]
  simp [hpos]

theorem parse_render {q : ℚ} (hq : 0 < q) (hden : q.den ∣ 10 ^ decExp q.den) :
    parsePrice (pyStrPos q) = some q := by
  have hDpos : 0 < q.den := q.den_pos
  have hNpos : 0 < q.num := Rat.num_pos.mpr hq
  set k := decExp q.den with hk
  set scaled := q.num.toNat * (10 ^ k / q.den) with hscaled_def
  set ip := scaled / 10 ^ k with hip
  set fp := scaled % 10 ^ k with hfp
  have hpk : (0:ℕ) < 10 ^ k := Nat.pos_pow_of_pos k (by omega)
  have hfp_lt : fp < 10 ^ k := Nat.mod_lt _ hpk
  have hsplit : 10 ^ k * ip + fp = scaled := Nat.div_add_mod scaled (10 ^ k)
  -- the rendered value in ℚ
  have hscaledQ : (scaled : ℚ) = q * 10 ^ k := by
    have hden10 : ((q.den : ℚ)) ≠ 0 := by
      exact_mod_cast Nat.pos_iff_ne_zero.mp hDpos
    have hcast : ((10 ^ k / q.den : ℕ) : ℚ) = (10 ^ k : ℚ) / (q.den : ℚ) := by
      rw [Nat.cast_div hden hden10]
      push_cast
      ring
    have hN : ((q.num.toNat : ℚ)) = (q.num : ℚ) := by
      have h1 : ((q.num.toNat : ℤ)) = q.num := Int.toNat_of_nonneg (le_of_lt hNpos)
      exact_mod_cast congrArg (fun z : ℤ => (z : ℚ)) h1
    rw [hscaled_def, Nat.cast_mul, hcast, hN]
    calc (q.num : ℚ) * ((10:ℚ) ^ k / (q.den : ℚ))
        = ((q.num : ℚ) / (q.den : ℚ)) * 10 ^ k := by ring
    _ = q * 10 ^ k := by rw [Rat.num_div_den]
  -- the digit lists
  set fds := natDigits fp with hfds
  set frac := List.replicate (k - fds.length) '0' ++ fds with hfrac
  have hfracdig : ∀ c ∈ frac, isDig c = true := by
    intro c hcmem
    rcases List.mem_append.mp hcmem with h | h
    · rw [List.eq_of_mem_replicate h]; decide
    · exact natDigits_digits fp c h
  have hfracval : digitsVal frac = fp := by
    rw [hfrac, digitsVal_replicate_zero, digitsVal_natDigits]
  -- the rendered value equals q
  have hmv : matchVal (natDigits ip) frac = q := by
    rw [matchVal_eq, digitsVal_natDigits, hfracval]
    by_cases hk0 : k = 0
    · have hfp0 : fp = 0 := by
        rw [hfp, hk0]
        simp [Nat.mod_one]
      have hip_eq : ip = scaled := by rw [hip, hk0]; simp
      have : (scaled : ℚ) = q := by rw [hscaledQ, hk0]; simp
      rw [hfp0, hip_eq, this]
      simp
    · have hk1 : 1 ≤ k := by omega
      have hlen : fds.length ≤ k := natDigits_length_le hk1 hfp_lt
      have hfraclen : frac.length = k := by
        rw [hfrac, List.length_append, List.length_replicate]
        omega
      rw [hfraclen]
      have h10 : ((10:ℚ) ^ k) ≠ 0 := by positivity
      have hsplitQ : (10:ℚ) ^ k * (ip:ℚ) + (fp:ℚ) = q * 10 ^ k := by
        rw [← hscaledQ]
        exact_mod_cast hsplit
      field_simp
      linear_combination hsplitQ
  have hstring : pyStrPos q = ⟨natDigits ip ++ '.' :: frac⟩ := rfl
  rw [hstring, parsePrice_digits (natDigits ip) frac (natDigits_ne_nil ip)
    (natDigits_digits ip) hfracdig (by rw [hmv]; exact hq), hmv]

theorem mkInfo_eq_some {url avail : String} {name : Option String}
    {price : Option ℚ} {image : Option String} {r : ProductInfo}
    (h : mkInfo url avail name price image = some r) :
    r.name ≠ "" ∧ price = some r.price ∧ r.price ≠ 0 ∧ r.availability = avail := by
  match name, price with
  | none, _ => simp [mkInfo] at h
  | some n, none => simp [mkInfo] at h
  | some n, some p =>
    rw [mkInfo] at h
    split at h
    · rename_i hcond
      obtain rfl := Option.some_injective _ h
      exact ⟨hcond.1, rfl, hcond.2, rfl⟩
    · simp at h

theorem bindParse_pos {o : Option String} {p : ℚ} (h : o.bind parsePrice = some p) :
    0 < p := by
  cases o with
  | none => simp at h
  | some t => exact parsePrice_pos (by simpa using h)

theorem bindSelParse_nonneg {o : Option String} {p : ℚ}
    (h : o.bind sel_parse_price = some p) : 0 ≤ p := by
  cases o with
  | none => simp at h
  | some t => exact sel_parse_price_nonneg (by simpa using h)

theorem firstParsedPrice_pos : ∀ {l : List String} {p : ℚ},
    firstParsedPrice l = some p → 0 < p := by
  intro l
  induction l with
  | nil => intro p h; simp [firstParsedPrice] at h
  | cons t rest ih =>
    intro p h
    rw [firstParsedPrice] at h
    split at h
    · rename_i q hq
      split at h
      · obtain rfl := Option.some_injective _ h
        exact parsePrice_pos hq
      · exact ih h
    · exact ih h

theorem firstMeeshoPrice_pos : ∀ {l : List String} {p : ℚ},
    firstMeeshoPrice l = some p → 0 < p := by
  intro l
  induction l with
  | nil => intro p h; simp [firstMeeshoPrice] at h
  | cons t rest ih =>
    intro p h
    rw [firstMeeshoPrice] at h
    split at h
    · rename_i q hq
      split at h
      · obtain rfl := Option.some_injective _ h
        exact parsePrice_pos hq
      · exact ih h
    · exact ih h

theorem adapterFor_inv {site url : String} {pg : Page} {r : ProductInfo}
    (h : adapterFor site url pg = some r) : r.name ≠ "" ∧ 0 < r.price := by
  rw [adapterFor] at h
  split_ifs at h
  · rw [scrape_amazon] at h
    obtain ⟨h1, h2, -, -⟩ := mkInfo_eq_some h
    exact ⟨h1, bindParse_pos h2⟩
  · rw [scrape_flipkart] at h
    obtain ⟨h1, h2, -, -⟩ := mkInfo_eq_some h
    exact ⟨h1, firstParsedPrice_pos h2⟩
  · rw [scrape_ebay] at h
    obtain ⟨h1, h2, -, -⟩ := mkInfo_eq_some h
    exact ⟨h1, firstParsedPrice_pos h2⟩
  · rw [scrape_generic] at h
    obtain ⟨h1, h2, -, -⟩ := mkInfo_eq_some h
    exact ⟨h1, bindParse_pos h2⟩

theorem extract_meesho_inv {url : String} {pg : Page} {r : ProductInfo}
    (h : extract_meesho url pg = some r) : r.name ≠ "" ∧ 0 < r.price := by
  rw [extract_meesho] at h
  obtain ⟨h1, h2, -, -⟩ := mkInfo_eq_some h
  exact ⟨h1, firstMeeshoPrice_pos h2⟩

theorem extract_myntra_inv {url : String} {pg : Page} {r : ProductInfo}
    (h : extract_myntra url pg = some r) : r.name ≠ "" ∧ 0 < r.price := by
  rw [extract_myntra] at h
  obtain ⟨h1, h2, -, -⟩ := mkInfo_eq_some h
  exact ⟨h1, bindParse_pos h2⟩

theorem runAttempts_inv {site url : String} :
    ∀ {l : List AttemptOutcome} {info : ProductInfo},
      (runAttempts site url l).1 = some info → info.name ≠ "" ∧ 0 < info.price := by
  intro l
  induction l with
  | nil => intro info h; simp [runAttempts] at h
  | cons o rest ih =>
    intro info h
    rw [runAttempts.eq_def] at h
    cases o with
    | fetched pg =>
      simp only [] at h
      cases had : adapterFor site url pg with
      | none =>
        rw [had] at h
        exact ih h
      | some cand =>
        rw [had] at h
        split at h
        · rename_i cand2 heq
          injection heq with heq2
          subst heq2
          split at h
          · obtain rfl := Option.some_injective _ h
            obtain ⟨h1, h2⟩ := adapterFor_inv had
            exact ⟨h1, h2⟩
          · exact ih h
        · rename_i heq
          exact absurd heq (by simp)
    | requestError =>
      try simp only [] at h
      split at h
      · simp at h
      · exact ih h
    | otherError =>
      try simp only [] at h
      exact ih h

theorem scrape_with_selenium_inv {url site : String} {d n w : Bool} {pg : Page}
    {info : ProductInfo}
    (h : (scrape_with_selenium url site d n w pg).1 = some info) :
    info.name ≠ "" ∧ 0 < info.price := by
  rw [scrape_with_selenium] at h
  split_ifs at h <;> try simp at h
  · exact extract_meesho_inv h
  · exact extract_myntra_inv h

theorem sel_scrape_myntra_inv {url : String} {d n w : Bool}
    {nt pt img : Option String} {info : ProductInfo}
    (h : (sel_scrape_myntra url d n w nt pt img).1 = some info) :
    info.name ≠ "" ∧ 0 < info.price := by
  rw [sel_scrape_myntra] at h
  split_ifs at h <;> try simp at h
  obtain ⟨h1, h2, h3, -⟩ := mkInfo_eq_some h
  have h4 : 0 ≤ info.price := bindSelParse_nonneg h2
  exact ⟨h1, lt_of_le_of_ne h4 (Ne.symm h3)⟩

theorem runAttempts_all_parse_failures {site url : String} :
    ∀ {l : List AttemptOutcome},
      (∀ o ∈ l, ∃ pg, o = AttemptOutcome.fetched pg ∧ adapterFor site url pg = none) →
      runAttempts site url l = (none, l.length, 0) := by
  intro l
  induction l with
  | nil => intro _; rfl
  | cons o rest ih =>
    intro hall
    obtain ⟨pg, rfl, hnone⟩ := hall o (by simp)
    have hrest := ih (fun o ho => hall o (by simp [ho]))
    rw [runAttempts.eq_def]
    simp only [hnone, hrest, List.length_cons]

theorem runAttempts_no_network_no_sleep {site url : String} :
    ∀ {l : List AttemptOutcome},
      (∀ o ∈ l, o ≠ AttemptOutcome.requestError) →
      (runAttempts site url l).2.2 = 0 := by
  intro l
  induction l with
  | nil => intro _; rfl
  | cons o rest ih =>
    intro hall
    have hrest := ih (fun o ho => hall o (by simp [ho]))
    rw [runAttempts.eq_def]
    cases o with
    | fetched pg =>
      cases had : adapterFor site url pg with
      | none => simpa [had] using hrest
      | some cand =>
        simp only [had]
        split
        · rfl
        · simpa using hrest
    | requestError => exact absurd rfl (hall _ (by simp))
    | otherError => simpa using hrest

theorem identifySite_error_iff (url : String) :
    identifySite url = .error () ↔ netlocInvalid (netlocRaw url) = true := by
  by_cases hb : netlocInvalid (netlocRaw url) = true <;> simp [identifySite, hb]

theorem identifySite_ok_mem {url s : String} (h : identifySite url = .ok s) :
    s ∈ siteNames := by
  rw [identifySite] at h
  by_cases hb : netlocInvalid (netlocRaw url) = true
  · simp [hb] at h
  · simp only [hb, Bool.false_eq_true, if_false, ite_false, Except.ok.injEq] at h
    split_ifs at h <;> simp [siteNames, ← h]

/-! ## Claim theorems -/

/-- Claim C1, counterexample: a run in which every attempt fetches the page
but the adapter extracts nothing (a `ParseFailure`) executes all
`retry_attempts = 3` loop iterations, not exactly one — the loop does not
return on a parse failure. -/
theorem C1_counterexample :
    runAttempts "amazon" "https://www.amazon.in/dp/x"
      (List.replicate retry_attempts (AttemptOutcome.fetched {})) = (none, 3, 0) ∧
    (3 : Nat) ≠ 1 :=
  ⟨by decide, by decide⟩

/-- Claim C1 as amended: when every attempt ends in a parse failure
(page fetched, adapter returns nothing), the retry controller runs all its
attempts and returns failure after `l.length` attempts with zero sleeps —
parse failures are retried but never slept on; sleeps happen only on
network (`RequestException`) errors. -/
theorem C1_parse_failure_retries :
    (∀ (site url : String) (l : List AttemptOutcome),
      (∀ o ∈ l, ∃ pg, o = AttemptOutcome.fetched pg ∧ adapterFor site url pg = none) →
      runAttempts site url l = (none, l.length, 0)) ∧
    (∀ (site url : String) (l : List AttemptOutcome),
      (∀ o ∈ l, o ≠ AttemptOutcome.requestError) →
      (runAttempts site url l).2.2 = 0) :=
  ⟨fun _ _ _ h => runAttempts_all_parse_failures h,
   fun _ _ _ h => runAttempts_no_network_no_sleep h⟩

/-- Claim C1, witness for the amended theorem at a concrete two-attempt
all-parse-failure run. -/
theorem C1_witness :
    runAttempts "amazon" "u" [AttemptOutcome.fetched {}, AttemptOutcome.fetched {}] =
      (none, 2, 0) := by
  have h := C1_parse_failure_retries.1 "amazon" "u"
    [AttemptOutcome.fetched {}, AttemptOutcome.fetched {}] ?_
  · simpa using h
  · intro o ho
    simp only [List.mem_cons, List.not_mem_nil, or_false] at ho
    rcases ho with rfl | rfl <;> exact ⟨{}, rfl, by decide⟩

/-- Claim C2, counterexample: with `alert_price = -5` (truthy in Python)
and `new_price = -10`, `update_price` sets `should_alert = true`, while
the claimed formula `(new_price <= alert_price) AND (alert_price > 0)`
is false. -/
theorem C2_counterexample :
    (update_price none (some (-5)) (-10)).should_alert = true ∧
    ¬(((-10 : ℚ) ≤ -5) ∧ ((0 : ℚ) < -5)) :=
  ⟨by decide, by decide⟩

/-- Claim C2 as amended: the code computes
`should_alert = new_price <= alert_price if alert_price else False`, i.e.
the gate is `alert_price` truthiness (present and nonzero), not
`alert_price > 0`.  For positive `new_price` this coincides with the
spec's formula, and a zero or absent alert price never triggers. -/
theorem C2_alert_decision (old : Option ℚ) (a n : ℚ) (h : 0 < n) :
    (update_price old (some a) n).should_alert = (decide (n ≤ a) && decide (0 < a)) ∧
    (update_price old (some 0) n).should_alert = false ∧
    (update_price old none n).should_alert = false := by
  refine ⟨?_, by simp [update_price], by simp [update_price]⟩
  have hval : (update_price old (some a) n).should_alert =
      (if a ≠ 0 then decide (n ≤ a) else false) := rfl
  rw [hval]
  by_cases ha : a = 0
  · subst ha
    simp [lt_irrefl]
  · rcases lt_or_gt_of_ne ha with hneg | hpos
    · have h1 : ¬(n ≤ a) := by linarith
      have h2 : ¬((0 : ℚ) < a) := by linarith
      simp [ha, h1, h2]
    · simp [ha, hpos]

/-- Claim C2, witness for the amended theorem at the spec's own example
(`old = None, new = 999, alert = 1000`). -/
theorem C2_witness :
    (update_price none (some 1000) 999).should_alert =
      (decide ((999 : ℚ) ≤ 1000) && decide ((0 : ℚ) < 1000)) :=
  (C2_alert_decision none 1000 999 (by norm_num)).1

/-- Claim C3, counterexample: on the path where the driver is created and
navigation succeeds but the `WebDriverWait` raises (timeout), the
exception handler returns `None` without ever calling `driver.quit()` —
the browser session is not released. -/
theorem C3_counterexample :
    scrape_with_selenium "https://www.meesho.com/p" "meesho" true true false {} =
      (none, false) := by decide

/-- Claim C3 as amended: in both Selenium scrapers `driver.quit()` runs
exactly on the paths where driver creation, navigation and the wait all
succeed (including the parse-failure path, which quits before the final
check); wait-timeout and navigation-failure paths leak the session. -/
theorem C3_teardown_iff (url site : String) (d n w : Bool) (pg : Page)
    (nt pt img : Option String) :
    (scrape_with_selenium url site d n w pg).2 = (d && n && w) ∧
    (sel_scrape_myntra url d n w nt pt img).2 = (d && n && w) := by
  cases d <;> cases n <;> cases w <;>
    simp [scrape_with_selenium, sel_scrape_myntra]

/-- Claim C4, counterexample: a Meesho URL is scraped with the static
strategy when Selenium is unavailable, so strategy selection is not a
function of the SiteId alone. -/
theorem C4_counterexample :
    selectStrategy "meesho" false = Strategy.staticFetch ∧
    selectStrategy "meesho" true = Strategy.dynamicRender :=
  ⟨by decide, by decide⟩

/-- Claim C4 as amended: strategy selection is a pure function of the
classified site and the `SELENIUM_AVAILABLE` import flag: DynamicRender
exactly for Meesho/Myntra with Selenium importable, StaticFetch in every
other case. -/
theorem C4_strategy_selection (site : String) (b : Bool) :
    selectStrategy site b = Strategy.dynamicRender ↔
      ((site = "meesho" ∨ site = "myntra") ∧ b = true) := by
  rw [selectStrategy]
  split_ifs with h
  · simp [h]
  · simp [h]

/-- Claim C5, counterexample: `parse("-5")` returns `5.0`, not absent —
the digit regex `\d+\.?\d*` has no sign, so the minus is dropped and the
positive magnitude passes the positivity check. -/
theorem C5_counterexample : parsePrice "-5" = some 5 := by decide

/-- Claim C5 as amended: the parser never raises and returns absent for
empty and non-numeric input, and every returned value is strictly
positive; but a negative-signed string such as `"-5"` yields the positive
magnitude `5` instead of absent. -/
theorem C5_parser_behavior :
    parsePrice "" = none ∧ parsePrice "N/A" = none ∧ parsePrice "-5" = some 5 ∧
    ∀ (s : String) (q : ℚ), parsePrice s = some q → 0 < q :=
  ⟨by decide, by decide, by decide, fun _ _ h => parsePrice_pos h⟩

/-- Claim C5, witness for the amended theorem: a successful parse with its
positivity conclusion at a concrete input. -/
theorem C5_witness : 0 < (7 : ℚ) := C5_parser_behavior.2.2.2 "₹7" 7 (by decide)

/-- Claim C6, counterexample: `parse("₹999 ₹1,299")` returns `9991299`,
not `999` — cleaning strips currency symbols, commas and whitespace
before matching, merging the two numbers. -/
theorem C6_counterexample :
    parsePrice "₹999 ₹1,299" = some 9991299 ∧ parsePrice "₹999 ₹1,299" ≠ some 999 :=
  ⟨by decide, by decide⟩

/-- Claim C6 as amended: the parser takes the first `\d+\.?\d*` match of
the *cleaned* string.  Numbers separated only by stripped characters
(currency symbols, commas, whitespace) are concatenated into one match,
so `"₹999 ₹1,299"` parses to `9991299`; when surviving characters
separate the numbers, the first one in encounter order is returned. -/
theorem C6_first_match_after_cleaning :
    parsePrice "₹999 ₹1,299" = some 9991299 ∧
    parsePrice "₹999 MRP ₹1,299" = some 999 :=
  ⟨by decide, by decide⟩

/-- Claim C7, counterexample: classification raises on `"http://["` —
CPython's `urlsplit` raises `ValueError` for an authority containing `[`
without `]`, and `_identify_site` calls it outside any `try`. -/
theorem C7_counterexample : identifySite "http://[" = .error () := by rfl

/-- Claim C7 as amended: classification fails exactly on inputs whose
authority `urlsplit` rejects — unbalanced square brackets, or balanced
brackets whose bracketed host is neither a valid IPvFuture nor a
non-IPv4 IP address; for every other input it returns exactly one of the
six site names (the five known-site substrings tried in fixed order
before the `"generic"` default).  The concrete conjuncts exercise the
bracketed-host path: `"[abc]"` raises while `"[::1]"` and the IPvFuture
`"[v1.x]"` classify as generic. -/
theorem C7_classification (url : String) :
    (identifySite url = .error () ↔ netlocInvalid (netlocRaw url) = true) ∧
    (∀ s : String, identifySite url = .ok s → s ∈ siteNames) ∧
    identifySite "http://[abc]" = .error () ∧
    identifySite "http://[::1]/p" = .ok "generic" ∧
    identifySite "http://[v1.x]/p" = .ok "generic" :=
  ⟨identifySite_error_iff url, fun _ h => identifySite_ok_mem h, by rfl, by rfl, by rfl⟩

/-- Claim C7, witness for the amended theorem at a concrete well-formed
URL. -/
theorem C7_witness : "flipkart" ∈ siteNames :=
  (C7_classification "https://www.flipkart.com/item").2.1 "flipkart" (by rfl)

/-- Claim C8: every success the engine returns — on the static retry path
and on both Selenium paths — has a non-empty name and a strictly positive
price; candidates violating the invariant are turned into failures by the
`if name and price` guards together with the parser's positivity check. -/
theorem C8_success_invariant (url : String) (selAvail d n w : Bool) (selPg : Page)
    (attempts : List AttemptOutcome) (r r2 : ProductInfo) (nt pt img : Option String) :
    (scrape_product url selAvail d n w selPg attempts = .ok (some r) →
      r.name ≠ "" ∧ 0 < r.price) ∧
    ((sel_scrape_myntra url d n w nt pt img).1 = some r2 →
      r2.name ≠ "" ∧ 0 < r2.price) := by
  constructor
  · intro h
    rw [scrape_product] at h
    split at h
    · exact absurd h (by simp)
    · split_ifs at h <;>
        · simp only [Except.ok.injEq] at h
          first
          | exact scrape_with_selenium_inv h
          | exact runAttempts_inv h
  · intro h
    exact sel_scrape_myntra_inv h

/-- Claim C8, witness: a complete end-to-end Amazon extraction whose
result satisfies the invariant. -/
theorem C8_witness :
    ({ name := "Test Widget", price := 1234, url := "https://www.amazon.in/dp/x",
       image_url := none, availability := "In Stock",
       site := some "amazon" } : ProductInfo).name ≠ "" ∧
    0 < ({ name := "Test Widget", price := 1234, url := "https://www.amazon.in/dp/x",
           image_url := none, availability := "In Stock",
           site := some "amazon" } : ProductInfo).price :=
  (C8_success_invariant "https://www.amazon.in/dp/x" false true true true {}
    [AttemptOutcome.fetched { nameText := some "Test Widget", priceText := some "₹1,234" }]
    { name := "Test Widget", price := 1234, url := "https://www.amazon.in/dp/x",
      image_url := none, availability := "In Stock", site := some "amazon" }
    { name := "Test Widget", price := 1234, url := "https://www.amazon.in/dp/x",
      image_url := none, availability := "In Stock", site := some "amazon" }
    none none none).1 (by rfl)

/-- Claim C9, counterexample: `parse("10000000000000000")` succeeds with
`10^16`, whose Python `str` is the scientific `"1e+16"`; re-parsing takes
only the digit run before the `e` and yields `1`, so
`parse(str(parse(x)))` differs from `parse(x)`. -/
theorem C9_counterexample :
    parsePrice "10000000000000000" = some (mkRat 10000000000000000 1) ∧
    pyStr (mkRat 10000000000000000 1) = "1e+16" ∧
    parsePrice (pyStr (mkRat 10000000000000000 1)) = some 1 ∧
    some (mkRat 10000000000000000 1) ≠ some (1 : ℚ) :=
  ⟨by decide, by decide, by decide, by decide⟩

/-- Claim C9 as amended: idempotence holds on `str`'s positional range —
for every parse success whose value lies in `[1e-4, 1e16)`, rendering the
value and re-parsing yields the same value; outside that range `str`
switches to scientific notation, whose `e`-exponent the parser drops. -/
theorem C9_parse_idempotent (x : String) (q : ℚ) (h : parsePrice x = some q)
    (hlo : posLow ≤ q) (hhi : q < posHigh) :
    parsePrice (pyStr q) = some q := by
  obtain ⟨d1, d2, hfn, rfl, hpos⟩ := parsePrice_eq h
  rw [pyStr, if_pos ⟨hlo, hhi⟩]
  exact parse_render hpos (decExp_dvd ⟨d2.length, matchVal_den_dvd d1 d2⟩)

/-- Claim C9, witness at `"₹12,345.50"`, whose parse is `12345.5`, well
inside the positional range. -/
theorem C9_witness :
    parsePrice "₹12,345.50" = some (mkRat 24691 2) ∧
    parsePrice (pyStr (mkRat 24691 2)) = some (mkRat 24691 2) :=
  ⟨by decide,
   C9_parse_idempotent "₹12,345.50" (mkRat 24691 2) (by decide) (by decide) (by decide)⟩

/-- Claim C10: every site-specific adapter reports availability
`"In Stock"` on success, unconditionally, and the generic adapter reports
`"Unknown"` — no success ever reports out-of-stock. -/
theorem C10_availability_constant (url : String) (pg : Page) (r : ProductInfo) :
    (scrape_amazon url pg = some r → r.availability = "In Stock") ∧
    (scrape_flipkart url pg = some r → r.availability = "In Stock") ∧
    (scrape_ebay url pg = some r → r.availability = "In Stock") ∧
    (extract_meesho url pg = some r → r.availability = "In Stock") ∧
    (extract_myntra url pg = some r → r.availability = "In Stock") ∧
    (scrape_generic url pg = some r → r.availability = "Unknown") := by
  refine ⟨fun h => ?_, fun h => ?_, fun h => ?_, fun h => ?_, fun h => ?_, fun h => ?_⟩
  · rw [scrape_amazon] at h; exact (mkInfo_eq_some h).2.2.2
  · rw [scrape_flipkart] at h; exact (mkInfo_eq_some h).2.2.2
  · rw [scrape_ebay] at h; exact (mkInfo_eq_some h).2.2.2
  · rw [extract_meesho] at h; exact (mkInfo_eq_some h).2.2.2
  · rw [extract_myntra] at h; exact (mkInfo_eq_some h).2.2.2
  · rw [scrape_generic] at h; exact (mkInfo_eq_some h).2.2.2

/-- Claim C10, witness: a concrete successful Amazon extraction reporting
`"In Stock"`. -/
theorem C10_witness :
    ({ name := "W", price := 5, url := "u", image_url := none,
       availability := "In Stock", site := none } : ProductInfo).availability = "In Stock" :=
  (C10_availability_constant "u" { nameText := some "W", priceText := some "5" }
    { name := "W", price := 5, url := "u", image_url := none,
      availability := "In Stock", site := none }).1 (by decide)
